import Mathlib

/-!
Verification development for the object-catalog synchronization and
search-orchestration core of an S3-backed media catalog.

The TypeScript source is shallowly embedded: asynchronous AWS calls are
modelled as oracle fields of environment structures (`S3Env`, `AthenaEnv`),
a thrown exception is `none` / `Except.error`, and JavaScript primitives
(`||` on strings, `String.prototype.trim`, `parseInt`, `Array.prototype.indexOf`,
`JSON.parse`, the regex fallback) are given explicit executable definitions.
-/

namespace S3Poc

instance {ε α : Type _} [DecidableEq ε] [DecidableEq α] : DecidableEq (Except ε α) :=
  fun x y =>
  match x, y with
  | .ok a, .ok b =>
    if h : a = b then isTrue (by rw [h]) else isFalse (fun he => h (Except.ok.inj he))
  | .error a, .error b =>
    if h : a = b then isTrue (by rw [h]) else isFalse (fun he => h (Except.error.inj he))
  | .ok _, .error _ => isFalse (fun he => Except.noConfusion he)
  | .error _, .ok _ => isFalse (fun he => Except.noConfusion he)

/-- JavaScript `a || d` for a possibly-undefined string `a`:
the default is taken when `a` is `undefined` or the empty string (falsy). -/
def jsOr (v : Option String) (d : String) : String :=
  match v with
  | some s => if s = "" then d else s
  | none => d

/-- Whitespace characters recognised by the JavaScript primitives modelled
here (space, tab, line feed, carriage return, vertical tab, form feed). -/
def isWsChar (c : Char) : Bool :=
  c = ' ' || c = '\t' || c = '\n' || c = '\r' || c.toNat = 11 || c.toNat = 12

/-- JavaScript `String.prototype.trim` (restricted to ASCII whitespace). -/
def jsTrim (s : String) : String :=
  String.mk (((s.data.dropWhile isWsChar).reverse.dropWhile isWsChar).reverse)

/-- JavaScript `parseInt` in base 10: skip leading whitespace, optional
sign, then the longest digit run; `none` models `NaN` (no digits). -/
def parseIntJS (s : String) : Option Int :=
  let cs := s.data.dropWhile isWsChar
  let signAndRest : Int × List Char :=
    match cs with
    | '-' :: t => (-1, t)
    | '+' :: t => (1, t)
    | _ => (1, cs)
  let ds := signAndRest.2.takeWhile Char.isDigit
  if ds.isEmpty then none
  else some (signAndRest.1 * (ds.foldl (fun a c => a * 10 + (c.toNat - 48)) 0 : Nat))

/-- JavaScript `Array.prototype.indexOf` on string arrays; `none` models
the `-1` result for a missing element. -/
def jsIndexOf : List String → String → Option Nat
  | [], _ => none
  | x :: xs, n => if x = n then some 0 else (jsIndexOf xs n).map (· + 1)

/-- Matches a literal character sequence at the front of the input and
returns the remainder, or `none`. -/
def dropLit : List Char → List Char → Option (List Char)
  | [], cs => some cs
  | _ :: _, [] => none
  | p :: ps, c :: cs => if p = c then dropLit ps cs else none

/-- A JavaScript `Date` value as the embedding needs it: either parsed
from a string (`new Date(s)`) or the current instant (`new Date()`). -/
inductive JSDate where
  | fromString (s : String)
  | now
deriving Repr, DecidableEq

/-! ## Storage model (AWS SDK responses as oracles)

`ListObjectVersionsCommand` yields optional `Versions`; each entry has the
optional fields the code reads.  `HeadObjectCommand` and `getSignedUrl`
are modelled as oracle functions of `(key, versionId)`; a `none` result
models a thrown/rejected call. -/

/-- One entry of `listResponse.Versions` with the fields the code reads;
every field is optional in the SDK's response type. -/
structure ObjectVersion where
  Key : Option String
  VersionId : Option String
  IsLatest : Option Bool
  Size : Option Int
  LastModified : Option JSDate
deriving Repr, DecidableEq

/-- The fields of a `HeadObjectCommand` response the code reads:
`ContentType` and `Metadata?.description` (both possibly undefined). -/
structure HeadResponse where
  contentType : Option String
  description : Option String
deriving Repr, DecidableEq

/-- The S3 side effects `fetchObjects`/`searchAthena` perform, as oracles:
the list-versions call (which can throw), and per-`(key, versionId)`
head-object and signed-URL calls (`none` models a rejection). -/
structure S3Env where
  listVersions : Except String (Option (List ObjectVersion))
  head : String → String → Option HeadResponse
  sign : String → String → Option String

/-- The catalog entry assembled per object (interface `S3Object` in the
source). `size` is a JS number that can be `NaN` (modelled `none`). -/
structure S3Object where
  key : String
  description : String
  versionId : String
  size : Option Int
  lastModified : JSDate
  contentType : String
  url : String
deriving Repr, DecidableEq

/-- Per-object enrichment inside `fetchObjects`: entries missing `Key` or
`VersionId` become `null` before any network call; then head-object and
signed-URL calls run inside a per-item `try`, any failure yielding `null`. -/
def enrichVersion (env : S3Env) (v : ObjectVersion) : Option S3Object :=
  match v.Key, v.VersionId with
  | some key, some versionId =>
    match env.head key versionId with
    | none => none
    | some h =>
      match env.sign key versionId with
      | none => none
      | some url =>
        some { key := key
               description := jsOr h.description "No description"
               versionId := versionId
               size := some (v.Size.getD 0)
               lastModified := v.LastModified.getD JSDate.now
               contentType := jsOr h.contentType "unknown"
               url := url }
  | _, _ => none

/-- `fetchObjects`: list all object versions; absent or empty `Versions`
yields an empty catalog; otherwise keep the entries with `IsLatest === true`,
enrich each (dropping per-item failures), and return the survivors.
A failure of the listing call itself is the only whole-call error. -/
def fetchObjects (env : S3Env) : Except String (List S3Object) :=
  match env.listVersions with
  | .error e => .error e
  | .ok none => .ok []
  | .ok (some versions) =>
    if versions.length = 0 then .ok []
    else
      let latestVersions := versions.filter (fun v => decide (v.IsLatest = some true))
      .ok ((latestVersions.map (enrichVersion env)).filterMap id)

/-! ## `JSON.parse` and the `user_metadata` description extraction

`searchAthena` parses each row's `user_metadata` cell with `JSON.parse`
inside a `try`, falling back to a regex scan on failure.  `JSON.parse`
is the ECMAScript built-in; it is embedded here as an executable
recursive-descent parser over the JSON grammar (fuelled by input length;
every recursion step consumes at least one character, so fuel
`length + 1` never runs out on inputs the grammar accepts). -/

/-- A parsed JSON value.  Numbers keep their source lexeme plus a zero
flag (all that the surrounding code can observe: truthiness and string
coercion). -/
inductive JsonVal where
  | null
  | bool (b : Bool)
  | num (lexeme : String) (isZero : Bool)
  | str (s : String)
  | arr (elems : List JsonVal)
  | obj (fields : List (String × JsonVal))
deriving Repr

/-- JSON insignificant whitespace (space, tab, line feed, carriage return). -/
def skipJsonWs (cs : List Char) : List Char :=
  cs.dropWhile (fun c => c = ' ' || c = '\t' || c = '\n' || c = '\r')

/-- Value of one hex digit. -/
def hexVal (c : Char) : Option Nat :=
  if '0' ≤ c ∧ c ≤ '9' then some (c.toNat - 48)
  else if 'a' ≤ c ∧ c ≤ 'f' then some (c.toNat - 87)
  else if 'A' ≤ c ∧ c ≤ 'F' then some (c.toNat - 55)
  else none

/-- JSON string escape characters. -/
def escChar : Char → Option Char
  | '"' => some '"'
  | '\\' => some '\\'
  | '/' => some '/'
  | 'b' => some (Char.ofNat 8)
  | 'f' => some (Char.ofNat 12)
  | 'n' => some '\n'
  | 'r' => some '\r'
  | 't' => some '\t'
  | _ => none

/-- Body of a JSON string after the opening quote: collects characters
until the closing quote, handling escapes; control characters and
malformed escapes are errors. -/
def parseStringBody : List Char → List Char → Option (String × List Char)
  | [], _ => none
  | '"' :: rest, acc => some (String.mk acc.reverse, rest)
  | '\\' :: rest, acc =>
    match rest with
    | 'u' :: a :: b :: c :: d :: rest2 =>
      match hexVal a, hexVal b, hexVal c, hexVal d with
      | some ha, some hb, some hc, some hd =>
        parseStringBody rest2 (Char.ofNat (((ha * 16 + hb) * 16 + hc) * 16 + hd) :: acc)
      | _, _, _, _ => none
    | e :: rest2 =>
      match escChar e with
      | some ec => parseStringBody rest2 (ec :: acc)
      | none => none
    | [] => none
  | c :: rest, acc =>
    if c.toNat < 32 then none else parseStringBody rest (c :: acc)

/-- A JSON number at the front of the input:
`-? (0 | [1-9][0-9]*) (. [0-9]+)? ([eE][+-]?[0-9]+)?`. -/
def parseNumber (cs : List Char) : Option (JsonVal × List Char) :=
  let sign : List Char × List Char :=
    match cs with
    | '-' :: t => (['-'], t)
    | _ => ([], cs)
  let intDigits := sign.2.takeWhile Char.isDigit
  let afterInt := sign.2.dropWhile Char.isDigit
  if intDigits.isEmpty then none
  else if intDigits.length > 1 && intDigits.headD 'x' = '0' then none
  else
    let frac : Option (List Char × List Char) :=
      match afterInt with
      | '.' :: t =>
        let fd := t.takeWhile Char.isDigit
        if fd.isEmpty then none else some ('.' :: fd, t.dropWhile Char.isDigit)
      | _ => some ([], afterInt)
    match frac with
    | none => none
    | some (fracLex, afterFrac) =>
      let expo : Option (List Char × List Char) :=
        match afterFrac with
        | e :: t =>
          if e = 'e' || e = 'E' then
            let se : List Char × List Char :=
              match t with
              | '+' :: u => (['+'], u)
              | '-' :: u => (['-'], u)
              | _ => ([], t)
            let ed := se.2.takeWhile Char.isDigit
            if ed.isEmpty then none
            else some (e :: (se.1 ++ ed), se.2.dropWhile Char.isDigit)
          else some ([], afterFrac)
        | [] => some ([], [])
      match expo with
      | none => none
      | some (expLex, rest) =>
        let isZero := intDigits.all (· = '0') && (fracLex.drop 1).all (· = '0')
        some (.num (String.mk (sign.1 ++ intDigits ++ fracLex ++ expLex)) isZero, rest)

mutual

/-- One JSON value at the front of the input (leading whitespace allowed). -/
def parseVal : Nat → List Char → Option (JsonVal × List Char)
  | 0, _ => none
  | fuel + 1, cs =>
    match skipJsonWs cs with
    | [] => none
    | c :: rest =>
      if c = '{' then
        match skipJsonWs rest with
        | '}' :: rest2 => some (.obj [], rest2)
        | _ =>
          match parseFields fuel rest with
          | some (fs, rest2) => some (.obj fs, rest2)
          | none => none
      else if c = '[' then
        match skipJsonWs rest with
        | ']' :: rest2 => some (.arr [], rest2)
        | _ =>
          match parseElems fuel rest with
          | some (es, rest2) => some (.arr es, rest2)
          | none => none
      else if c = '"' then
        match parseStringBody rest [] with
        | some (s, rest2) => some (.str s, rest2)
        | none => none
      else
        match dropLit "true".data (c :: rest) with
        | some rest2 => some (.bool true, rest2)
        | none =>
          match dropLit "false".data (c :: rest) with
          | some rest2 => some (.bool false, rest2)
          | none =>
            match dropLit "null".data (c :: rest) with
            | some rest2 => some (.null, rest2)
            | none => parseNumber (c :: rest)

/-- The members of a nonempty JSON object, after the opening brace. -/
def parseFields : Nat → List Char → Option (List (String × JsonVal) × List Char)
  | 0, _ => none
  | fuel + 1, cs =>
    match skipJsonWs cs with
    | '"' :: rest =>
      match parseStringBody rest [] with
      | some (k, rest2) =>
        match skipJsonWs rest2 with
        | ':' :: rest3 =>
          match parseVal fuel rest3 with
          | some (v, rest4) =>
            match skipJsonWs rest4 with
            | ',' :: rest5 =>
              match parseFields fuel rest5 with
              | some (fs, rest6) => some ((k, v) :: fs, rest6)
              | none => none
            | '}' :: rest5 => some ([(k, v)], rest5)
            | _ => none
          | none => none
        | _ => none
      | none => none
    | _ => none

/-- The elements of a nonempty JSON array, after the opening bracket. -/
def parseElems : Nat → List Char → Option (List JsonVal × List Char)
  | 0, _ => none
  | fuel + 1, cs =>
    match parseVal fuel cs with
    | some (v, rest) =>
      match skipJsonWs rest with
      | ',' :: rest2 =>
        match parseElems fuel rest2 with
        | some (es, rest3) => some (v :: es, rest3)
        | none => none
      | ']' :: rest2 => some ([v], rest2)
      | _ => none
    | none => none

end

/-- ECMAScript `JSON.parse`: a single JSON value surrounded by optional
whitespace; `none` models the thrown `SyntaxError`. -/
def jsonParse (s : String) : Option JsonVal :=
  match parseVal (s.length + 1) s.data with
  | some (v, rest) => if skipJsonWs rest = [] then some v else none
  | none => none

/-- Property lookup on a parsed JSON object; with duplicate keys the
last occurrence wins, as in `JSON.parse`. -/
def objGet : List (String × JsonVal) → String → Option JsonVal
  | [], _ => none
  | (k, v) :: rest, key =>
    match objGet rest key with
    | some w => some w
    | none => if k = key then some v else none

/-- JavaScript property access `v.description` on a parsed value that is
not `null`: only objects carry fields, everything else gives `undefined`. -/
def jsProp (v : JsonVal) (key : String) : Option JsonVal :=
  match v with
  | .obj fields => objGet fields key
  | _ => none

/-- JavaScript truthiness of a parsed JSON value. -/
def jsTruthy : JsonVal → Bool
  | .null => false
  | .bool b => b
  | .num _ isZero => !isZero
  | .str s => s ≠ ""
  | .arr _ => true
  | .obj _ => true

/-- JavaScript string coercion of a parsed JSON value (as far as the
surrounding code can observe it), fuelled so the recursion is structural;
callers pass fuel at least the nesting depth (a value parsed from a
string is at most as deep as the string is long), making the
fuel-exhausted arm unreachable. -/
def jsToString : Nat → JsonVal → String
  | _, .null => "null"
  | _, .bool b => cond b "true" "false"
  | _, .num lex _ => lex
  | _, .str s => s
  | 0, .arr _ => ""
  | fuel + 1, .arr es => String.intercalate "," (es.map (jsToString fuel))
  | _, .obj _ => "[object Object]"

/-- One attempt of the regex `description\s*=\s*([^,}]+)` anchored at the
current position: the literal `description`, optional whitespace, `=`,
then the capture.  The second `\s*` is greedy but backtracks: if only
whitespace separates `=` from a separator/terminator (or the end), the
engine gives back one whitespace character so the `[^,}]+` capture can
still succeed on it. -/
def matchDescAt (cs : List Char) : Option String :=
  match dropLit "description".data cs with
  | none => none
  | some afterLit =>
    match afterLit.dropWhile isWsChar with
    | '=' :: afterEq =>
      let ws := afterEq.takeWhile isWsChar
      let body := afterEq.dropWhile isWsChar
      let cap := body.takeWhile (fun c => c ≠ ',' && c ≠ '}')
      if cap.isEmpty then
        match ws.getLast? with
        | some w => some (String.mk [w])
        | none => none
      else some (String.mk cap)
    | _ => none

/-- Leftmost match of `description\s*=\s*([^,}]+)`, returning the capture
group (`match[1]`), or `none` when the regex does not match. -/
def findDescCapture : List Char → Option String
  | [] => none
  | c :: cs =>
    match matchDescAt (c :: cs) with
    | some cap => some cap
    | none => findDescCapture cs

/-- The `catch` branch of the `user_metadata` parsing: scan for an Athena
map-format `description=value` token; a nonempty capture is trimmed,
otherwise the description keeps its `"No description"` default. -/
def fallbackScan (userMetadataStr : String) : String :=
  match findDescCapture userMetadataStr.data with
  | some cap => if cap ≠ "" then jsTrim cap else "No description"
  | none => "No description"

/-- The two-strategy `user_metadata` parsing of `searchAthena`: first
`JSON.parse` and read `.description` (`|| "No description"`); a parse
failure — or the property access throwing on a parsed `null` — falls back
to the regex scan; the default is `"No description"`. -/
def parseDescription (userMetadataStr : String) : String :=
  match jsonParse userMetadataStr with
  | some um =>
    match um with
    | .null => fallbackScan userMetadataStr
    | _ =>
      match jsProp um "description" with
      | some dv =>
        if jsTruthy dv then jsToString (userMetadataStr.length + 1) dv
        else "No description"
      | none => "No description"
  | none => fallbackScan userMetadataStr

/-! ## Athena result model and the `searchAthena` pipeline -/

/-- One cell of an Athena result row (`Datum`). -/
structure Datum where
  VarCharValue : Option String
deriving Repr, DecidableEq

/-- One Athena result row. -/
structure Row where
  Data : Option (List Datum)
deriving Repr, DecidableEq

/-- `row.Data?.[i]?.VarCharValue || d`: an absent column index (JS `-1`),
an out-of-range access, a missing cell value, or an empty string all give
the default. -/
def cellOr (data : Option (List Datum)) (i : Option Nat) (d : String) : String :=
  match i, data with
  | some idx, some cells =>
    match cells[idx]? with
    | some cell => jsOr cell.VarCharValue d
    | none => d
  | _, _ => d

/-- `headerRow.Data?.map(col => col.VarCharValue || "") || []`. -/
def columnNamesOf (headerRow : Row) : List String :=
  match headerRow.Data with
  | some cells => cells.map (fun col => jsOr col.VarCharValue "")
  | none => []

/-- One parsed search result row, before S3 enrichment. -/
structure SearchRow where
  key : String
  versionId : String
  size : Option Int
  lastModified : JSDate
  description : String
deriving Repr, DecidableEq

/-- Extraction of one data row given the five column indices located in
the header: missing pieces yield `""`/`0`/now/`{}` defaults, and the
`user_metadata` cell goes through the two-strategy description parsing. -/
def extractRow (keyIndex versionIdIndex sizeIndex lastModifiedIndex userMetadataIndex :
    Option Nat) (row : Row) : SearchRow :=
  let key := cellOr row.Data keyIndex ""
  let versionId := cellOr row.Data versionIdIndex ""
  let size := parseIntJS (cellOr row.Data sizeIndex "0")
  let lastModifiedStr := cellOr row.Data lastModifiedIndex ""
  let userMetadataStr := cellOr row.Data userMetadataIndex "\x7b\x7d"
  { key := key
    versionId := versionId
    size := size
    lastModified := if lastModifiedStr = "" then JSDate.now
      else JSDate.fromString lastModifiedStr
    description := parseDescription userMetadataStr }

/-- Row extraction over a full result set: row 0 is the header naming
columns; each later row is extracted with the indices found there. -/
def extractSearchRows (rows : List Row) : List SearchRow :=
  match rows with
  | [] => []
  | headerRow :: dataRows =>
    let columnNames := columnNamesOf headerRow
    dataRows.map (extractRow (jsIndexOf columnNames "key")
      (jsIndexOf columnNames "version_id")
      (jsIndexOf columnNames "size")
      (jsIndexOf columnNames "last_modified_date")
      (jsIndexOf columnNames "user_metadata"))

/-- Per-row S3 join inside `searchAthena`: head the object, pick the
final description (the Athena-parsed one when truthy and not the
`"No description"` default, else the live metadata description), sign a
URL; any failure inside the per-item `try` drops the row (`null`). -/
def enrichSearchRow (env : S3Env) (r : SearchRow) : Option S3Object :=
  match env.head r.key r.versionId with
  | none => none
  | some h =>
    let finalDescription :=
      if r.description ≠ "" ∧ r.description ≠ "No description" then r.description
      else jsOr h.description "No description"
    match env.sign r.key r.versionId with
    | none => none
    | some url =>
      some { key := r.key
             description := finalDescription
             versionId := r.versionId
             size := r.size
             lastModified := r.lastModified
             contentType := jsOr h.contentType "unknown"
             url := url }

/-! ## The Athena query poll loop -/

/-- Bounded attempt count of the poll loop (`maxAttempts`). -/
def maxAttempts : Nat := 30

/-- Fixed poll interval in milliseconds (`setTimeout(resolve, 1000)`). -/
def pollIntervalMs : Nat := 1000

/-- The poll loop body: while the status is `RUNNING` or `QUEUED` and the
attempt bound is not reached, sleep one interval, fetch the status of
poll number `attempts` (`UNKNOWN` when the response carries none) and
increment.  Structural fuel stands in for the loop's own bound; callers
start it at `maxAttempts` so it never exhausts first. -/
def pollGo (statusAt : Nat → Option String) :
    Nat → String → Nat → String × Nat
  | 0, queryStatus, attempts => (queryStatus, attempts)
  | fuel + 1, queryStatus, attempts =>
    if (queryStatus = "RUNNING" ∨ queryStatus = "QUEUED") ∧ attempts < maxAttempts then
      pollGo statusAt fuel ((statusAt attempts).getD "UNKNOWN") (attempts + 1)
    else (queryStatus, attempts)

/-- The whole poll loop of `searchAthena`: status starts `"RUNNING"`,
attempts at `0`; returns the final status and the number of polls
(each preceded by one fixed-interval sleep). -/
def pollFrom (statusAt : Nat → Option String) : String × Nat :=
  pollGo statusAt maxAttempts "RUNNING" 0

/-- The Athena side effects of `searchAthena`, as oracles: the execution
id returned by `StartQueryExecutionCommand` (`none` models an undefined
id), the status of each numbered poll, the `StateChangeReason` of the
final status fetch, and the result rows. -/
structure AthenaEnv where
  queryExecutionId : Option String
  statusAt : Nat → Option String
  stateChangeReason : Option String
  resultRows : Option (List Row)

/-- `searchAthena`: a blank (whitespace-only) query falls back to
`fetchObjects`; otherwise start the query, poll to completion, fail
unless the final status is `SUCCEEDED` (attaching the state-change
reason or the last status), treat a header-only result set as empty,
extract rows and join each against live S3 metadata with per-row
failures dropped. -/
def searchAthena (env : S3Env) (aenv : AthenaEnv) (query : String) :
    Except String (List S3Object) :=
  if jsTrim query = "" then fetchObjects env
  else
    match aenv.queryExecutionId with
    | none => .error "Failed to start Athena query"
    | some _ =>
      let queryStatus := (pollFrom aenv.statusAt).1
      if queryStatus ≠ "SUCCEEDED" then
        .error ("Athena query failed: " ++
          jsOr aenv.stateChangeReason ("Query failed with status: " ++ queryStatus))
      else
        let rows := aenv.resultRows.getD []
        if rows.length ≤ 1 then .ok []
        else
          let searchResults := extractSearchRows rows
          .ok ((searchResults.map (enrichSearchRow env)).filterMap id)

/-! ## Metadata Mutator (`ImageViewer.handleSaveDescription`) -/

/-- The `CopyObjectCommand` fields `handleSaveDescription` fills in. -/
structure CopyCommand where
  Key : String
  ContentType : String
  Metadata : List (String × String)
  MetadataDirective : String
deriving Repr, DecidableEq

/-- The copy-in-place command `handleSaveDescription` sends: the object's
current `contentType` is resubmitted and the replacement metadata map
holds exactly the new description. -/
def handleSaveDescriptionCopyCommand (imageKey contentType description : String) :
    CopyCommand :=
  { Key := imageKey
    ContentType := contentType
    Metadata := [("description", description)]
    MetadataDirective := "REPLACE" }

/-- The metadata-bearing state of one stored object version, as a
subsequent head-object call reads it back. -/
structure ObjectState where
  contentType : String
  metadata : List (String × String)
deriving Repr, DecidableEq

/-- Modelled from the spec: the external object store's copy-onto-itself
semantics (`replaceMetadataInPlace`, §4.1/glossary) — with the `REPLACE`
metadata directive the new version's content type and metadata are those
of the command, the binary content is unchanged; the store itself is an
external collaborator, not repository code. -/
def applyCopy (st : ObjectState) (cmd : CopyCommand) : ObjectState :=
  if cmd.MetadataDirective = "REPLACE" then
    { contentType := cmd.ContentType, metadata := cmd.Metadata }
  else st

/-- The delay `handleSaveDescription` waits after a successful metadata
write before refreshing the URL (`setTimeout(resolve, 500)`). -/
def propagationDelayMs : Nat := 500

/-- The side effects of one save, as oracles: the copy-object send and
the signed-URL issuance inside `refreshImageUrl` (errors model
rejections). -/
structure SaveEnv where
  copyResult : Except String Unit
  signResult : Except String String

/-- `refreshImageUrl`: issue a fresh signed URL for the key; a failure is
re-thrown so the caller knows it failed. -/
def refreshImageUrl (env : SaveEnv) : Except String String :=
  env.signResult

/-- The observable outcome of one `handleSaveDescription` run: the
success flag, the surfaced error, the refreshed URL, and how long the
post-write propagation wait was. -/
structure SaveResult where
  saveSuccess : Bool
  saveError : Option String
  imageUrl : Option String
  waitedMs : Nat
deriving Repr, DecidableEq

/-- Control flow of `handleSaveDescription`: send the copy command; on
success wait the fixed propagation delay, then refresh the signed URL;
only then report success.  Either failure lands in the `catch`, which
records the underlying message and never sets the success flag. -/
def handleSaveDescription (env : SaveEnv) : SaveResult :=
  match env.copyResult with
  | .error e =>
    { saveSuccess := false, saveError := some e, imageUrl := none, waitedMs := 0 }
  | .ok _ =>
    match refreshImageUrl env with
    | .error e =>
      { saveSuccess := false, saveError := some e, imageUrl := none
        waitedMs := propagationDelayMs }
    | .ok url =>
      { saveSuccess := true, saveError := none, imageUrl := some url
        waitedMs := propagationDelayMs }

/-! ## Concrete evaluation environments -/

/-- Head-object oracle of the concrete environment: knows the latest
versions of `a.jpg` and `b.png`, rejects everything else (in particular
`c.gif`, which stands for an object deleted between list and head). -/
def headW : String → String → Option HeadResponse := fun key versionId =>
  if key = "a.jpg" ∧ versionId = "v2" then
    some { contentType := some "image/jpeg", description := some "live alpha" }
  else if key = "b.png" ∧ versionId = "v7" then
    some { contentType := some "image/png", description := none }
  else none

/-- Signed-URL oracle of the concrete environment. -/
def signW : String → String → Option String := fun key versionId =>
  if key = "a.jpg" ∧ versionId = "v2" then some "https://signed/a"
  else if key = "b.png" ∧ versionId = "v7" then some "https://signed/b"
  else none

/-- Latest version of `a.jpg`. -/
def vA : ObjectVersion :=
  { Key := some "a.jpg", VersionId := some "v2", IsLatest := some true
    Size := some 100, LastModified := some (JSDate.fromString "2024-01-01") }

/-- Superseded version of `a.jpg`. -/
def vA1 : ObjectVersion :=
  { Key := some "a.jpg", VersionId := some "v1", IsLatest := some false
    Size := some 90, LastModified := some (JSDate.fromString "2023-12-01") }

/-- Latest version of `b.png`. -/
def vB : ObjectVersion :=
  { Key := some "b.png", VersionId := some "v7", IsLatest := some true
    Size := some 200, LastModified := some (JSDate.fromString "2024-02-02") }

/-- Latest version of `c.gif`, whose enrichment fails (`headW` rejects). -/
def vC : ObjectVersion :=
  { Key := some "c.gif", VersionId := some "v9", IsLatest := some true
    Size := some 300, LastModified := some (JSDate.fromString "2024-03-03") }

/-- A listing entry with no `Key`. -/
def vBad : ObjectVersion :=
  { Key := none, VersionId := some "vx", IsLatest := some true
    Size := none, LastModified := none }

/-- The concrete S3 environment. -/
def envW : S3Env :=
  { listVersions := .ok (some [vA, vA1, vB, vC, vBad])
    head := headW, sign := signW }

/-- The catalog entry `fetchObjects envW` assembles for `a.jpg`. -/
def objA : S3Object :=
  { key := "a.jpg", description := "live alpha", versionId := "v2"
    size := some 100, lastModified := JSDate.fromString "2024-01-01"
    contentType := "image/jpeg", url := "https://signed/a" }

/-- The catalog entry `fetchObjects envW` assembles for `b.png`. -/
def objB : S3Object :=
  { key := "b.png", description := "No description", versionId := "v7"
    size := some 200, lastModified := JSDate.fromString "2024-02-02"
    contentType := "image/png", url := "https://signed/b" }

/-- A concrete Athena environment whose query fails on the first poll. -/
def aenvW : AthenaEnv :=
  { queryExecutionId := some "qid-1", statusAt := fun _ => some "FAILED"
    stateChangeReason := none, resultRows := none }

/-- Head-object oracle for the search-join environment: the live metadata
carries description `"live"`. -/
def headC1 : String → String → Option HeadResponse := fun key versionId =>
  if key = "k.jpg" ∧ versionId = "v1" then
    some { contentType := some "image/jpeg", description := some "live" }
  else none

/-- Signed-URL oracle for the search-join environment. -/
def signC1 : String → String → Option String := fun key versionId =>
  if key = "k.jpg" ∧ versionId = "v1" then some "https://signed/k" else none

/-- The search-join S3 environment. -/
def envC1 : S3Env := { listVersions := .ok none, head := headC1, sign := signC1 }

/-- A search result row whose indexed description is `"indexed"`. -/
def rowC1 : SearchRow :=
  { key := "k.jpg", versionId := "v1", size := some 10
    lastModified := JSDate.fromString "2024-05-05", description := "indexed" }

/-- The catalog entry the search join produces for `rowC1` under `envC1`. -/
def objC1 : S3Object :=
  { key := "k.jpg", description := "indexed", versionId := "v1"
    size := some 10, lastModified := JSDate.fromString "2024-05-05"
    contentType := "image/jpeg", url := "https://signed/k" }

/-- An Athena header row naming no expected column. -/
def headerW : Row := { Data := some [{ VarCharValue := some "other" }] }

/-- A data row under `headerW`. -/
def rowW : Row := { Data := some [{ VarCharValue := some "whatever" }] }

/-- The search row extracted from `rowW` under `headerW`: all defaults. -/
def rW : SearchRow :=
  { key := "", versionId := "", size := some 0
    lastModified := JSDate.now, description := "No description" }

/-- A save environment where both the copy and the URL refresh succeed. -/
def saveEnvW : SaveEnv :=
  { copyResult := .ok (), signResult := .ok "https://signed/new" }

/-! ## Sanity checks on concrete inputs -/

example : jsOr (some "") "d" = "d" := by decide
example : jsOr (some "x") "d" = "x" := by decide
example : jsTrim "  Hello World " = "Hello World" := by decide
example : parseIntJS "0" = some 0 := by decide
example : parseIntJS " 42abc" = some 42 := by decide
example : parseIntJS "abc" = none := by decide
example : jsIndexOf ["a", "b"] "b" = some 1 := by decide
example : jsIndexOf ["a", "b"] "c" = none := by decide
example : parseDescription "\x7bdescription=Hello World\x7d" = "Hello World" := by decide
example : parseDescription "\x7b\"description\":\"Hi\"\x7d" = "Hi" := by decide
example : parseDescription "\x7b\x7d" = "No description" := by decide
example : parseDescription "garbage" = "No description" := by decide
example : parseDescription "" = "No description" := by decide
example : parseDescription "\x7b\"description\":\"\"\x7d" = "No description" := by decide
example : parseDescription "null" = "No description" := by decide
example : parseDescription "\x7bdescription= ,x\x7d" = "" := by decide
example : jsonParse "\x7bdescription=Hello World\x7d" = none := by rfl
example : jsonParse " \x7b \"a\" : [1, true, null] \x7d " =
    some (.obj [("a", .arr [.num "1" false, .bool true, .null])]) := by rfl
example : jsonParse "\x7b\"a\":1\x7d x" = none := by rfl
example : jsonParse "01" = none := by rfl
example : jsonParse "-0.50e2" = some (.num "-0.50e2" false) := by rfl
example : fetchObjects envW = .ok [objA, objB] := by decide
example : enrichSearchRow envC1 rowC1 = some objC1 := by decide
example : extractSearchRows [headerW, rowW] = [rW] := by decide
example : pollFrom aenvW.statusAt = ("FAILED", 1) := by decide

/-! ## Helper lemmas -/

lemma enrichVersion_some {env : S3Env} {v : ObjectVersion} {o : S3Object}
    (h : enrichVersion env v = some o) :
    v.Key = some o.key ∧ v.VersionId = some o.versionId := by
  rcases hK : v.Key with _ | key
  · simp [enrichVersion, hK] at h
  · rcases hV : v.VersionId with _ | ver
    · simp [enrichVersion, hK, hV] at h
    · rcases hH : env.head key ver with _ | hd
      · simp [enrichVersion, hK, hV, hH] at h
      · rcases hS : env.sign key ver with _ | url
        · simp [enrichVersion, hK, hV, hH, hS] at h
        · simp [enrichVersion, hK, hV, hH, hS] at h
          subst h
          exact ⟨rfl, rfl⟩

lemma pairwise_filterMap {α β : Type _} {R : α → α → Prop} {S : β → β → Prop}
    (f : α → Option β)
    (hf : ∀ a b x y, R a b → f a = some x → f b = some y → S x y) :
    ∀ l : List α, l.Pairwise R → (l.filterMap f).Pairwise S := by
  intro l
  induction l with
  | nil => intro _; simp
  | cons a t ih =>
    intro hp
    rcases List.pairwise_cons.mp hp with ⟨ha, ht⟩
    cases hfa : f a with
    | none => simpa [List.filterMap_cons, hfa] using ih ht
    | some x =>
      rw [List.filterMap_cons, hfa]
      refine List.pairwise_cons.mpr ⟨?_, ih ht⟩
      intro y hy
      rcases List.mem_filterMap.mp hy with ⟨b, hb, hfb⟩
      exact hf a b x y (ha b hb) hfa hfb

lemma fetchObjects_ok (env : S3Env) (vs : List ObjectVersion)
    (h : env.listVersions = .ok (some vs)) :
    fetchObjects env =
      .ok ((vs.filter (fun v => decide (v.IsLatest = some true))).filterMap
        (enrichVersion env)) := by
  unfold fetchObjects
  rw [h]
  by_cases hlen : vs.length = 0
  · have hnil : vs = [] := List.length_eq_zero.mp hlen
    subst hnil
    simp
  · simp [hlen, List.filterMap_map, Function.id_comp]

lemma jsIndexOf_eq_none {l : List String} {x : String} (h : x ∉ l) :
    jsIndexOf l x = none := by
  induction l with
  | nil => rfl
  | cons a t ih =>
    have hne : ¬ a = x := fun he => h (he ▸ List.mem_cons_self a t)
    have hxt : x ∉ t := fun hm => h (List.mem_cons_of_mem a hm)
    simp [jsIndexOf, hne, ih hxt]

lemma pollGo_le (statusAt : Nat → Option String) :
    ∀ fuel st a, a ≤ maxAttempts → (pollGo statusAt fuel st a).2 ≤ maxAttempts := by
  intro fuel
  induction fuel with
  | zero => intro st a h; simpa [pollGo] using h
  | succ n ih =>
    intro st a h
    by_cases hc : (st = "RUNNING" ∨ st = "QUEUED") ∧ a < maxAttempts
    · simpa [pollGo, hc] using ih _ (a + 1) hc.2
    · simpa [pollGo, hc] using h

lemma pollGo_exit (statusAt : Nat → Option String) :
    ∀ fuel st a, a ≤ maxAttempts → maxAttempts ≤ a + fuel →
      ¬ ((pollGo statusAt fuel st a).1 = "RUNNING"
          ∨ (pollGo statusAt fuel st a).1 = "QUEUED")
        ∨ (pollGo statusAt fuel st a).2 = maxAttempts := by
  intro fuel
  induction fuel with
  | zero =>
    intro st a h1 h2
    right
    simp only [pollGo]
    omega
  | succ n ih =>
    intro st a h1 h2
    by_cases hc : (st = "RUNNING" ∨ st = "QUEUED") ∧ a < maxAttempts
    · simpa [pollGo, hc] using ih _ (a + 1) hc.2 (by omega)
    · by_cases hP : st = "RUNNING" ∨ st = "QUEUED"
      · right
        have : ¬ a < maxAttempts := fun hlt => hc ⟨hP, hlt⟩
        simp only [pollGo, if_neg hc]
        omega
      · left
        simpa [pollGo, hc] using hP

/-! ## Claim theorems -/

/-- C2: for every storage state, `fetchObjects` returns at most one entry
per key (given the store invariant that at most one version per key is
flagged latest), that entry's `versionId` is the version flagged latest
for its key, and empty storage (no `Versions`, or an empty list) yields
an empty catalog rather than an error. -/
theorem fetchObjects_latestOnly (env : S3Env) :
    (env.listVersions = .ok none → fetchObjects env = .ok []) ∧
    (env.listVersions = .ok (some []) → fetchObjects env = .ok []) ∧
    (∀ vs : List ObjectVersion, env.listVersions = .ok (some vs) →
      (vs.filter (fun v => decide (v.IsLatest = some true))).Pairwise
        (fun a b => a.Key ≠ b.Key) →
      ∃ objs, fetchObjects env = .ok objs ∧
        objs.Pairwise (fun a b => a.key ≠ b.key) ∧
        (∀ o ∈ objs, ∃ v ∈ vs, v.IsLatest = some true ∧
          v.Key = some o.key ∧ v.VersionId = some o.versionId)) := by
  refine ⟨fun h => by simp [fetchObjects, h], fun h => by simp [fetchObjects, h], ?_⟩
  intro vs h hpw
  refine ⟨_, fetchObjects_ok env vs h, ?_, ?_⟩
  · refine pairwise_filterMap (enrichVersion env) ?_ _ hpw
    intro a b x y hR ha hb he
    exact hR (((enrichVersion_some ha).1.trans (congrArg _ he)).trans
      (enrichVersion_some hb).1.symm)
  · intro o ho
    rcases List.mem_filterMap.mp ho with ⟨v, hv, he⟩
    rcases List.mem_filter.mp hv with ⟨hvs, hlat⟩
    rcases enrichVersion_some he with ⟨hk, hvid⟩
    exact ⟨v, hvs, of_decide_eq_true hlat, hk, hvid⟩

/-- Witness for C2 on the concrete environment: five listed versions,
three flagged latest, one of which fails enrichment and one of which has
no key. -/
theorem fetchObjects_latestOnly_witness :
    ∃ objs, fetchObjects envW = .ok objs ∧
      objs.Pairwise (fun a b => a.key ≠ b.key) ∧
      (∀ o ∈ objs, ∃ v ∈ [vA, vA1, vB, vC, vBad], v.IsLatest = some true ∧
        v.Key = some o.key ∧ v.VersionId = some o.versionId) :=
  (fetchObjects_latestOnly envW).2.2 [vA, vA1, vB, vC, vBad] rfl (by decide)

/-- C3: a failure enriching a single object is not fatal to the catalog
fan-out — the whole call errors exactly when the listing call errors,
a successful listing always yields a successful result, the entries
whose enrichment succeeds are all present, and every returned entry comes
from a latest-flagged listing entry whose enrichment succeeded (so a
failed entry is dropped, not propagated). -/
theorem enrichmentFailureTolerance (env : S3Env) :
    (∀ e, env.listVersions = .error e → fetchObjects env = .error e) ∧
    (∀ ovs, env.listVersions = .ok ovs → ∃ objs, fetchObjects env = .ok objs) ∧
    (∀ vs, env.listVersions = .ok (some vs) →
      ∀ objs, fetchObjects env = .ok objs →
        (∀ w ∈ vs, w.IsLatest = some true →
          ∀ o, enrichVersion env w = some o → o ∈ objs) ∧
        (∀ o ∈ objs, ∃ w ∈ vs, w.IsLatest = some true ∧
          enrichVersion env w = some o)) := by
  refine ⟨fun e h => by simp [fetchObjects, h], ?_, ?_⟩
  · intro ovs h
    cases ovs with
    | none => exact ⟨[], by simp [fetchObjects, h]⟩
    | some vs => exact ⟨_, fetchObjects_ok env vs h⟩
  · intro vs h objs hobjs
    rw [fetchObjects_ok env vs h] at hobjs
    have heq := Except.ok.inj hobjs
    subst heq
    constructor
    · intro w hw hlat o he
      exact List.mem_filterMap.mpr
        ⟨w, List.mem_filter.mpr ⟨hw, by simp [hlat]⟩, he⟩
    · intro o ho
      rcases List.mem_filterMap.mp ho with ⟨w, hw, he⟩
      rcases List.mem_filter.mp hw with ⟨hws, hlat⟩
      exact ⟨w, hws, of_decide_eq_true hlat, he⟩

/-- Witness for C3 on the concrete environment: `vC` is listed and latest
but its enrichment fails, yet the call succeeds and the surviving entry
of `vA` is returned. -/
theorem enrichmentFailureTolerance_witness :
    enrichVersion envW vC = none ∧ objA ∈ [objA, objB] :=
  ⟨by decide,
    ((enrichmentFailureTolerance envW).2.2 [vA, vA1, vB, vC, vBad] rfl
      [objA, objB] (by decide)).1 vA (by decide) (by decide) objA (by decide)⟩

/-- C10: a listed version without `Key` or without `VersionId` is mapped
to `null` independently of the storage oracles (no network call is made
for it), and every entry of the final catalog arises from some listed
version whose enrichment returned a full entry — so such a version is
silently dropped rather than failing the batch or yielding a partial
entry. -/
theorem missingKeyDrop (env : S3Env) (v : ObjectVersion)
    (h : v.Key = none ∨ v.VersionId = none) :
    enrichVersion env v = none ∧
    (∀ env2 : S3Env, enrichVersion env2 v = none) ∧
    (∀ vs objs, env.listVersions = .ok (some vs) → fetchObjects env = .ok objs →
      ∀ o ∈ objs, ∃ w ∈ vs, enrichVersion env w = some o) := by
  have henr : ∀ env2 : S3Env, enrichVersion env2 v = none := by
    intro env2
    rcases h with hk | hv
    · simp [enrichVersion, hk]
    · rcases hK : v.Key with _ | key
      · simp [enrichVersion, hK]
      · simp [enrichVersion, hK, hv]
  refine ⟨henr env, henr, ?_⟩
  intro vs objs hl hobjs o ho
  rw [fetchObjects_ok env vs hl] at hobjs
  have heq := Except.ok.inj hobjs
  subst heq
  rcases List.mem_filterMap.mp ho with ⟨w, hw, he⟩
  exact ⟨w, (List.mem_filter.mp hw).1, he⟩

/-- Witness for C10: the keyless listing entry `vBad` enriches to `null`
in the concrete environment. -/
theorem missingKeyDrop_witness : enrichVersion envW vBad = none :=
  (missingKeyDrop envW vBad (Or.inl rfl)).1

/-- C4: the copy command built by `handleSaveDescription` resubmits the
object's current `contentType` with the metadata replacement, so after
writing description `D` the stored version re-reads description `D` and
its `contentType` is unchanged. -/
theorem updateDescription_roundTrip (st : ObjectState) (imageKey D : String) :
    ((applyCopy st (handleSaveDescriptionCopyCommand imageKey st.contentType D)).metadata.lookup
        "description" = some D) ∧
    (applyCopy st (handleSaveDescriptionCopyCommand imageKey st.contentType D)).contentType
      = st.contentType := by
  constructor <;> rfl

/-- C5: `handleSaveDescription` reports success exactly when both the
metadata write and the post-write URL refresh succeed; after a
successful write it waits the fixed 500 ms propagation delay before
the refresh; either failure surfaces its underlying message and success
is not reported. -/
theorem saveReportsSuccess (env : SaveEnv) :
    propagationDelayMs = 500 ∧
    ((handleSaveDescription env).saveSuccess = true ↔
      (env.copyResult = .ok () ∧ ∃ u, env.signResult = .ok u)) ∧
    (env.copyResult = .ok () →
      (handleSaveDescription env).waitedMs = propagationDelayMs) ∧
    (∀ u, env.copyResult = .ok () → env.signResult = .ok u →
      handleSaveDescription env =
        { saveSuccess := true, saveError := none, imageUrl := some u
          waitedMs := propagationDelayMs }) ∧
    (∀ e, env.copyResult = .error e →
      handleSaveDescription env =
        { saveSuccess := false, saveError := some e, imageUrl := none
          waitedMs := 0 }) ∧
    (∀ e, env.copyResult = .ok () → env.signResult = .error e →
      handleSaveDescription env =
        { saveSuccess := false, saveError := some e, imageUrl := none
          waitedMs := propagationDelayMs }) := by
  obtain ⟨cr, sr⟩ := env
  cases cr <;> cases sr <;>
    simp [handleSaveDescription, refreshImageUrl, propagationDelayMs]

/-- Witness for C5: with both steps succeeding, the save reports success
and the refreshed URL. -/
theorem saveReportsSuccess_witness :
    handleSaveDescription saveEnvW =
      { saveSuccess := true, saveError := none
        imageUrl := some "https://signed/new", waitedMs := propagationDelayMs } :=
  (saveReportsSuccess saveEnvW).2.2.2.1 "https://signed/new" rfl rfl

/-- C7: a blank or whitespace-only query makes `searchAthena` behave as
the unfiltered `fetchObjects` listing — the very same result, and no
dependence on the Athena environment (no query is submitted). -/
theorem blankQuery_equivalence (env : S3Env) (aenv aenv2 : AthenaEnv)
    (query : String) (h : jsTrim query = "") :
    searchAthena env aenv query = fetchObjects env ∧
    searchAthena env aenv query = searchAthena env aenv2 query := by
  constructor <;> simp [searchAthena, h]

/-- Witness for C7 on a whitespace-only query. -/
theorem blankQuery_equivalence_witness :
    searchAthena envW aenvW "   " = fetchObjects envW :=
  (blankQuery_equivalence envW aenvW aenvW "   " (by decide)).1

/-- C6: the poll loop runs at the fixed 1-second interval for at most 30
attempts while the status is `QUEUED` or `RUNNING`, so its total sleep
time is bounded by interval × maxAttempts; it stops only on a
non-continuation status or on exhausting the bound, and any final status
other than `SUCCEEDED` — timeout included — surfaces as the
query-failure error carrying the state-change reason or the last known
status. -/
theorem queryPollBound (env : S3Env) (aenv : AthenaEnv) (query qid : String) :
    maxAttempts = 30 ∧ pollIntervalMs = 1000 ∧
    (pollFrom aenv.statusAt).2 ≤ maxAttempts ∧
    pollIntervalMs * (pollFrom aenv.statusAt).2 ≤ pollIntervalMs * maxAttempts ∧
    (¬ ((pollFrom aenv.statusAt).1 = "RUNNING"
        ∨ (pollFrom aenv.statusAt).1 = "QUEUED")
      ∨ (pollFrom aenv.statusAt).2 = maxAttempts) ∧
    (jsTrim query ≠ "" → aenv.queryExecutionId = some qid →
      (pollFrom aenv.statusAt).1 ≠ "SUCCEEDED" →
      searchAthena env aenv query = .error ("Athena query failed: " ++
        jsOr aenv.stateChangeReason
          ("Query failed with status: " ++ (pollFrom aenv.statusAt).1))) := by
  have hle := pollGo_le aenv.statusAt maxAttempts "RUNNING" 0 (Nat.zero_le _)
  have hex := pollGo_exit aenv.statusAt maxAttempts "RUNNING" 0 (Nat.zero_le _)
    (by omega)
  refine ⟨rfl, rfl, hle, Nat.mul_le_mul_left _ hle, hex, ?_⟩
  intro hq hid hst
  unfold searchAthena
  rw [if_neg hq, hid]
  simp [hst]

/-- Witness for C6: a first poll returning `FAILED` stops the loop and
the search surfaces the query-failure error with the last status. -/
theorem queryPollBound_witness :
    searchAthena envW aenvW "x" =
      .error "Athena query failed: Query failed with status: FAILED" := by
  have h := (queryPollBound envW aenvW "x" "qid-1").2.2.2.2.2 (by decide) rfl
    (by decide)
  exact h.trans (by decide)

/-- C1 (amended): in the search join, the `contentType` does come from
the live head response, but the description prefers the indexed
(Athena-parsed) copy whenever it is nonempty and not the
`"No description"` default; the live metadata description is only the
fallback (with `"No description"` when it is absent or empty). -/
theorem searchJoin_descriptionPrecedence (env : S3Env) (r : SearchRow)
    (o : S3Object) (h : enrichSearchRow env r = some o) :
    ∃ hd, env.head r.key r.versionId = some hd ∧
      o.contentType = jsOr hd.contentType "unknown" ∧
      (r.description ≠ "" ∧ r.description ≠ "No description" →
        o.description = r.description) ∧
      (r.description = "" ∨ r.description = "No description" →
        o.description = jsOr hd.description "No description") := by
  rcases hH : env.head r.key r.versionId with _ | hd
  · simp [enrichSearchRow, hH] at h
  · rcases hS : env.sign r.key r.versionId with _ | url
    · simp [enrichSearchRow, hH, hS] at h
    · simp [enrichSearchRow, hH, hS] at h
      subst h
      refine ⟨hd, rfl, rfl, ?_, ?_⟩
      · intro hc
        exact if_pos hc
      · intro hc
        exact if_neg (fun hand => hc.elim (fun h1 => hand.1 h1) (fun h2 => hand.2 h2))

/-- Witness for C1 (amended): a row with indexed description `"indexed"`
joins to an entry that keeps the indexed description. -/
theorem searchJoin_descriptionPrecedence_witness :
    enrichSearchRow envC1 rowC1 = some objC1 ∧ objC1.description = "indexed" := by
  refine ⟨by decide, ?_⟩
  obtain ⟨hd, hhd, hct, hpref, hfall⟩ :=
    searchJoin_descriptionPrecedence envC1 rowC1 objC1 (by decide)
  exact (hpref (by decide)).trans (by decide)

/-- Counterexample to C1 as stated: here the live head metadata carries
description `"live"`, the indexed copy is `"indexed"`, both present, yet
the final entry's description is the indexed one, not the live one. -/
theorem searchJoin_liveOverride_cex :
    envC1.head "k.jpg" "v1" =
      some { contentType := some "image/jpeg", description := some "live" } ∧
    enrichSearchRow envC1 rowC1 = some objC1 ∧
    rowC1.key = "k.jpg" ∧ rowC1.versionId = "v1" ∧
    rowC1.description = "indexed" ∧
    objC1.description = "indexed" ∧ objC1.description ≠ "live" := by decide

/-- C8: the `user_metadata` string is parsed by first attempting a JSON
parse and extracting `description`, then — only on parse failure — by
the `description=value` scan up to the next separator/terminator with
whitespace trimmed; when both strategies produce nothing the description
defaults to `"No description"`, and the Athena map format
`\x7bdescription=Hello World\x7d` extracts `Hello World`. -/
theorem userMetadataParsing (s : String) :
    (∀ fields d, jsonParse s = some (.obj fields) →
      objGet fields "description" = some (.str d) → d ≠ "" →
      parseDescription s = d) ∧
    (jsonParse s = none → parseDescription s = fallbackScan s) ∧
    (jsonParse s = none → findDescCapture s.data = none →
      parseDescription s = "No description") ∧
    parseDescription "\x7bdescription=Hello World\x7d" = "Hello World" := by
  refine ⟨?_, ?_, ?_, by decide⟩
  · intro fields d hp hg hd
    simp [parseDescription, hp, jsProp, hg, jsTruthy, hd, jsToString]
  · intro hn
    simp [parseDescription, hn]
  · intro hn hf
    simp [parseDescription, fallbackScan, hn, hf]

/-- Witness for C8: a well-formed JSON metadata map yields its
`description` field through the structured strategy. -/
theorem userMetadataParsing_witness :
    parseDescription "\x7b\"description\":\"Hi\"\x7d" = "Hi" :=
  (userMetadataParsing "\x7b\"description\":\"Hi\"\x7d").1
    [("description", JsonVal.str "Hi")] "Hi" (by rfl) (by rfl) (by decide)

/-- C9: a required column missing from the header row is not fatal — the
corresponding field of every extracted row takes its empty/default value
(empty strings, size 0, the current-date default, the empty metadata
map's `"No description"`), and every data row still yields a row (no
exception interrupts extraction). -/
theorem missingColumnDefaults (headerRow : Row) (dataRows : List Row)
    (r : SearchRow) (hr : r ∈ extractSearchRows (headerRow :: dataRows)) :
    ("key" ∉ columnNamesOf headerRow → r.key = "") ∧
    ("version_id" ∉ columnNamesOf headerRow → r.versionId = "") ∧
    ("size" ∉ columnNamesOf headerRow → r.size = some 0) ∧
    ("last_modified_date" ∉ columnNamesOf headerRow → r.lastModified = JSDate.now) ∧
    ("user_metadata" ∉ columnNamesOf headerRow →
      r.description = "No description") ∧
    (extractSearchRows (headerRow :: dataRows)).length = dataRows.length := by
  rcases List.mem_map.mp hr with ⟨row, hrow, hre⟩
  subst hre
  refine ⟨?_, ?_, ?_, ?_, ?_, by simp [extractSearchRows]⟩
  · intro hmem
    simp [extractRow, cellOr, jsIndexOf_eq_none hmem]
  · intro hmem
    simp [extractRow, cellOr, jsIndexOf_eq_none hmem]
  · intro hmem
    simp [extractRow, cellOr, jsIndexOf_eq_none hmem]
    decide
  · intro hmem
    simp [extractRow, cellOr, jsIndexOf_eq_none hmem]
  · intro hmem
    simp [extractRow, cellOr, jsIndexOf_eq_none hmem]
    decide

/-- Witness for C9: under a header naming none of the required columns,
the extracted row is all defaults. -/
theorem missingColumnDefaults_witness :
    rW.key = "" ∧ rW.size = some 0 ∧ rW.description = "No description" :=
  ⟨(missingColumnDefaults headerW [rowW] rW (by decide)).1 (by decide),
   (missingColumnDefaults headerW [rowW] rW (by decide)).2.2.1 (by decide),
   (missingColumnDefaults headerW [rowW] rW (by decide)).2.2.2.2.1 (by decide)⟩

end S3Poc
